import Mathlib

/-!
Verification of the per-parameter adaptive update engine of
`tanganke/pytorch_optimizer`: the AdaFactor factored second-moment
tracker (`pytorch_optimizer/optimizer/adafactor.py`), the LARS
trust-ratio step (`pytorch_optimizer/lars.py`) and the Nero
neuron-wise step (`pytorch_optimizer/nero.py`).

Modelling conventions:
* Tensors of rank 2 are functions `Fin m → Fin n → ℝ`; rank-1 tensors are
  `Fin n → ℝ`.  Float arithmetic is modelled by real arithmetic;
  `torch.rsqrt x` is `(Real.sqrt x)⁻¹` and `math.pow t d` on a possibly
  negative float exponent is real `rpow`.
* The single IEEE-NaN special case the source handles explicitly
  (`grad_normed[torch.isnan(grad_normed)] = 0.0` in nero.py) is modelled by
  `nanToZeroDiv`, which returns 0 exactly when the float quotient would be
  NaN (0/0).
* In-place mutation is modelled by explicit state passing: each `step`
  consumes and returns the parameter together with its optimizer state.
-/

open Finset

/-! ## AdaFactor (pytorch_optimizer/optimizer/adafactor.py) -/

/-- `AdaFactor.get_lr` (adafactor.py lines 109-120): in relative-step mode the
step size is `min(min_step, 1/sqrt(step))` with `min_step = 1e-6*step` under
warmup init and `1e-2` otherwise; the parameter scale is `1.0` when
`scale_parameter` is true and `max(eps2, rms)` when it is false (this is the
condition exactly as written on line 118 of the source). -/
noncomputable def AdaFactor.get_lr (eps2 lr : ℝ) (step : ℕ) (rms : ℝ)
    (relative_step warmup_init scale_parameter : Bool) : ℝ :=
  let relative_step_size : ℝ :=
    if relative_step then
      let min_step : ℝ := if warmup_init then 1e-6 * step else 1e-2
      min min_step (1 / Real.sqrt step)
    else lr
  let param_scale : ℝ := if scale_parameter then 1.0 else max eps2 rms
  param_scale * relative_step_size

/-- `AdaFactor.get_options` (adafactor.py lines 122-125): a parameter is
factored iff its rank is at least 2. -/
def AdaFactor.get_options (rank : ℕ) : Bool := 2 ≤ rank

/-- `AdaFactor.get_rms` (adafactor.py lines 127-130) on a rank-2 tensor:
`x.norm(2) / sqrt(x.numel())`. -/
noncomputable def AdaFactor.get_rms {m n : ℕ} (x : Fin m → Fin n → ℝ) : ℝ :=
  Real.sqrt (∑ i, ∑ j, (x i j) ^ 2) / Real.sqrt (m * n)

/-- `AdaFactor.approximate_sq_grad` (adafactor.py lines 132-141) on a rank-2
tensor: `r_factor = rsqrt(row / row.mean(dim=-1))` (a column vector),
`c_factor = rsqrt(col)` (a row vector), output = elementwise product of the
two broadcasts, i.e. the outer product. -/
noncomputable def AdaFactor.approximate_sq_grad {m n : ℕ}
    (exp_avg_sq_row : Fin m → ℝ) (exp_avg_sq_col : Fin n → ℝ) :
    Fin m → Fin n → ℝ :=
  let rowMean : ℝ := (∑ i, exp_avg_sq_row i) / m
  fun i j => (Real.sqrt (exp_avg_sq_row i / rowMean))⁻¹ * (Real.sqrt (exp_avg_sq_col j))⁻¹

/-- `beta2_t` (adafactor.py line 158): `1.0 - step ** decay_rate`, recomputed
from the group step counter every step; real `rpow` since `decay_rate` is a
(typically negative) float. -/
noncomputable def AdaFactor.beta2_t (step : ℕ) (decay_rate : ℝ) : ℝ :=
  1 - (step : ℝ) ^ decay_rate

/-- Per-group hyperparameters of AdaFactor (adafactor.py lines 63-76), plus
the constructor-level attributes `decay_rate`, `clip_threshold`, `eps1`,
`eps2` (lines 58-61).  Of `betas` only `beta1` is read by `step`. -/
structure AFConfig where
  lr : ℝ
  beta1 : ℝ
  decay_rate : ℝ
  weight_decay : ℝ
  weight_decouple : Bool
  fixed_decay : Bool
  clip_threshold : ℝ
  ams_bound : Bool
  scale_parameter : Bool
  relative_step : Bool
  warmup_init : Bool
  eps1 : ℝ
  eps2 : ℝ

/-- Per-parameter AdaFactor state for a factored (rank-2) parameter
(adafactor.py lines 184-198): first-moment buffer, the row/col reduced
second-moment buffers, the AMS bound buffer (present only under
`ams_bound`; kept unconditionally here, unread otherwise), and the scalar
`RMS`. -/
structure AFStateF (m n : ℕ) where
  exp_avg : Fin m → Fin n → ℝ
  exp_avg_sq_row : Fin m → ℝ
  exp_avg_sq_col : Fin n → ℝ
  exp_avg_sq_hat : Fin m → Fin n → ℝ
  RMS : ℝ

/-- Modelled from the spec: `BaseOptimizer.apply_weight_decay`
(`pytorch_optimizer.base.optimizer`, imported by adafactor.py but not under
src/).  Spec §4.2 step 10 and glossary: decoupled weight decay is applied
directly to the parameter (scaled by `lr` unless `fixed_decay`); the coupled
branch folds decay into the gradient, and AdaFactor passes `grad=None`
(adafactor.py line 242), so the coupled branch leaves the parameter
untouched. -/
def applyWeightDecay {m n : ℕ} (p : Fin m → Fin n → ℝ) (lr weight_decay : ℝ)
    (weight_decouple fixed_decay : Bool) : Fin m → Fin n → ℝ :=
  if weight_decouple then
    fun i j => p i j * (1 - weight_decay * (if fixed_decay then 1 else lr))
  else p

/-- One AdaFactor update of a single factored rank-2 parameter
(adafactor.py lines 156-249, without the GaLore branch, i.e. groups carrying
no `rank` key), with the group step counter already incremented to `t`
(lines 150-154): recompute `beta2_t` and `RMS`, get the learning rate,
form `update = grad*grad + eps1`, decay the row/col buffers against its
row/col means, reconstruct via `approximate_sq_grad` (or the AMS-bound
variant), multiply by the gradient, clip by
`max(rms(update)/clip_threshold, 1)`, scale by the learning rate, blend into
`exp_avg`, apply weight decay, and subtract `exp_avg` from the parameter. -/
noncomputable def AdaFactor.stepFactored {m n : ℕ} (cfg : AFConfig) (t : ℕ)
    (p grad : Fin m → Fin n → ℝ) (st : AFStateF m n) :
    (Fin m → Fin n → ℝ) × AFStateF m n :=
  let beta2t : ℝ := AdaFactor.beta2_t t cfg.decay_rate
  let rms : ℝ := AdaFactor.get_rms p
  let lr : ℝ := AdaFactor.get_lr cfg.eps2 cfg.lr t rms
    cfg.relative_step cfg.warmup_init cfg.scale_parameter
  let update0 : Fin m → Fin n → ℝ := fun i j => grad i j * grad i j + cfg.eps1
  let row' : Fin m → ℝ :=
    fun i => st.exp_avg_sq_row i * beta2t + (∑ j, update0 i j) / n * (1 - beta2t)
  let col' : Fin n → ℝ :=
    fun j => st.exp_avg_sq_col j * beta2t + (∑ i, update0 i j) / m * (1 - beta2t)
  let update1 : Fin m → Fin n → ℝ := AdaFactor.approximate_sq_grad row' col'
  let hat' : Fin m → Fin n → ℝ := fun i j => max (st.exp_avg_sq_hat i j) (1 / update1 i j)
  let update2 : Fin m → Fin n → ℝ :=
    if cfg.ams_bound then fun i j => (Real.sqrt (hat' i j / beta2t))⁻¹ else update1
  let update3 : Fin m → Fin n → ℝ := fun i j => update2 i j * grad i j
  let clip : ℝ := max (AdaFactor.get_rms update3 / cfg.clip_threshold) 1
  let update4 : Fin m → Fin n → ℝ := fun i j => update3 i j / clip * lr
  let exp_avg' : Fin m → Fin n → ℝ :=
    fun i j => st.exp_avg i j * cfg.beta1 + update4 i j * (1 - cfg.beta1)
  let p1 := applyWeightDecay p lr cfg.weight_decay cfg.weight_decouple cfg.fixed_decay
  (fun i j => p1 i j - exp_avg' i j,
   { exp_avg := exp_avg', exp_avg_sq_row := row', exp_avg_sq_col := col',
     exp_avg_sq_hat := if cfg.ams_bound then hat' else st.exp_avg_sq_hat,
     RMS := rms })

/-! ### Claims C1 and C2: the learning-rate policy -/

/-- C1 counterexample: in the spec's end-to-end scenario (first step, so group
step counter = 1, `relative_step=True`, `warmup_init=False`, and the
constructor defaults `scale_parameter=True`, `lr=1e-3`, `eps2=1e-3`) the step
size computed by `AdaFactor.get_lr` is `min(1e-2, 1/sqrt 1) = 0.01`, which is
not the claimed `1/sqrt 1 = 1.0`. -/
theorem C1_first_step_lr_counterexample :
    AdaFactor.get_lr 1e-3 1e-3 1 1 true false true = 1 / 100 ∧
      (1 / 100 : ℝ) ≠ 1 / Real.sqrt 1 := by
  constructor
  · simp only [AdaFactor.get_lr, if_true, if_false, Nat.cast_one, Real.sqrt_one]
    norm_num
  · rw [Real.sqrt_one]
    norm_num

/-- C1 (amended): for the first step (step counter = 1) in relative-step mode
without warmup init, the relative step size is `min(1e-2, 1/sqrt 1) = 0.01`,
and `AdaFactor.get_lr` returns it multiplied by the parameter scale
(`1.0` when `scale_parameter` is true, `max(eps2, rms)` otherwise). -/
theorem C1_first_step_lr (eps2 lr rms : ℝ) (scale_parameter : Bool) :
    AdaFactor.get_lr eps2 lr 1 rms true false scale_parameter =
      (if scale_parameter then 1 else max eps2 rms) * (1 / 100) := by
  simp only [AdaFactor.get_lr, if_true, if_false, Nat.cast_one, Real.sqrt_one]
  norm_num

/-- C2 (code bug at adafactor.py line 118): the docstring of
`scale_parameter` (line 25) says "if true, learning rate is scaled by
root-mean-square of parameter", but the code multiplies by `max(eps2, rms)`
exactly when `scale_parameter` is False.  At the failing input
`scale_parameter=True, rms=5, eps2=1e-3, step=1, relative_step=True,
warmup_init=False` the code returns `0.01` (no RMS factor), while with
`scale_parameter=False` it returns `5 * 0.01 = 0.05` (the RMS factor). -/
theorem C2_scale_parameter_inverted :
    AdaFactor.get_lr 1e-3 1e-3 1 5 true false true = 1 / 100 ∧
      AdaFactor.get_lr 1e-3 1e-3 1 5 true false false = 5 * (1 / 100) := by
  constructor <;>
  · simp only [AdaFactor.get_lr, if_true, if_false, Nat.cast_one, Real.sqrt_one]
    norm_num

/-! ### Claim C4: time-varying factored second-moment decay -/

/-- C4: on an AdaFactor step of a factored parameter with group step counter
`t`, the decay coefficient is `beta2(t) = 1 - t^decay_rate` recomputed from
`t`, the new row buffer is
`beta2(t)*row + (1-beta2(t))*mean(grad^2 + eps1, last axis)` and the new
column buffer is `beta2(t)*col + (1-beta2(t))*mean(grad^2 + eps1,
second-to-last axis)`; moreover `beta2` is genuinely time-varying:
`beta2(1) ≠ beta2(2)` at the default `decay_rate = -0.8`. -/
theorem C4_factored_second_moment_decay {m n : ℕ} (cfg : AFConfig) (t : ℕ)
    (p grad : Fin m → Fin n → ℝ) (st : AFStateF m n) :
    ((AdaFactor.stepFactored cfg t p grad st).2.exp_avg_sq_row = fun i =>
        AdaFactor.beta2_t t cfg.decay_rate * st.exp_avg_sq_row i +
          (1 - AdaFactor.beta2_t t cfg.decay_rate) * ((∑ j, ((grad i j) ^ 2 + cfg.eps1)) / n)) ∧
    ((AdaFactor.stepFactored cfg t p grad st).2.exp_avg_sq_col = fun j =>
        AdaFactor.beta2_t t cfg.decay_rate * st.exp_avg_sq_col j +
          (1 - AdaFactor.beta2_t t cfg.decay_rate) * ((∑ i, ((grad i j) ^ 2 + cfg.eps1)) / m)) ∧
    AdaFactor.beta2_t 1 (-0.8) ≠ AdaFactor.beta2_t 2 (-0.8) := by
  refine ⟨?_, ?_, ?_⟩
  · funext i
    simp only [AdaFactor.stepFactored]
    ring_nf
  · funext j
    simp only [AdaFactor.stepFactored]
    ring_nf
  · have h1 : AdaFactor.beta2_t 1 (-0.8) = 0 := by
      simp [AdaFactor.beta2_t, Real.one_rpow]
    have h2 : (2 : ℝ) ^ (-0.8 : ℝ) < 1 :=
      Real.rpow_lt_one_of_one_lt_of_neg (by norm_num) (by norm_num)
    have h3 : 0 < AdaFactor.beta2_t 2 (-0.8) := by
      simp only [AdaFactor.beta2_t, Nat.cast_ofNat]
      linarith
    rw [h1]
    exact fun h => absurd h.symm (ne_of_gt h3)

/-! ### Claim C5: shape, rank-1 structure and nonnegativity of the
factored reconstruction -/

/-- C5: for a rank-2 gradient of shape `m × n` whose row and column buffers
have strictly positive entries, `approximate_sq_grad` yields a tensor of the
same `m × n` shape (its type is `Fin m → Fin n → ℝ`, the gradient's index
type), equal to the outer product of a row factor and a column factor, with
no negative entries. -/
theorem C5_approximate_sq_grad_outer {m n : ℕ}
    (exp_avg_sq_row : Fin m → ℝ) (exp_avg_sq_col : Fin n → ℝ)
    (hrow : ∀ i, 0 < exp_avg_sq_row i) (hcol : ∀ j, 0 < exp_avg_sq_col j) :
    (∃ r : Fin m → ℝ, ∃ c : Fin n → ℝ, ∀ i j,
        AdaFactor.approximate_sq_grad exp_avg_sq_row exp_avg_sq_col i j = r i * c j) ∧
    (∀ i j, 0 ≤ AdaFactor.approximate_sq_grad exp_avg_sq_row exp_avg_sq_col i j) := by
  constructor
  · exact ⟨fun i => (Real.sqrt (exp_avg_sq_row i / ((∑ k, exp_avg_sq_row k) / m)))⁻¹,
      fun j => (Real.sqrt (exp_avg_sq_col j))⁻¹, fun i j => rfl⟩
  · intro i j
    exact mul_nonneg (inv_nonneg.mpr (Real.sqrt_nonneg _)) (inv_nonneg.mpr (Real.sqrt_nonneg _))

/-- C5 witness: the all-ones `1 × 1` row and column buffers are strictly
positive and the reconstruction at them is a nonnegative outer product. -/
theorem C5_approximate_sq_grad_outer_witness :
    ((∀ i : Fin 1, 0 < (fun _ : Fin 1 => (1 : ℝ)) i) ∧
     (∀ j : Fin 1, 0 < (fun _ : Fin 1 => (1 : ℝ)) j)) ∧
    ((∃ r : Fin 1 → ℝ, ∃ c : Fin 1 → ℝ, ∀ i j,
        AdaFactor.approximate_sq_grad (fun _ : Fin 1 => (1 : ℝ))
          (fun _ : Fin 1 => (1 : ℝ)) i j = r i * c j) ∧
     (∀ i j, 0 ≤ AdaFactor.approximate_sq_grad (fun _ : Fin 1 => (1 : ℝ))
          (fun _ : Fin 1 => (1 : ℝ)) i j)) :=
  ⟨⟨fun _ => one_pos, fun _ => one_pos⟩,
   C5_approximate_sq_grad_outer _ _ (fun _ => one_pos) (fun _ => one_pos)⟩

/-! ## LARS (pytorch_optimizer/lars.py) -/

/-- `torch.norm` of a rank-2 tensor (Frobenius / 2-norm), as used on
lars.py lines 86-87. -/
noncomputable def frobNorm {m n : ℕ} (x : Fin m → Fin n → ℝ) : ℝ :=
  Real.sqrt (∑ i, ∑ j, (x i j) ^ 2)

/-- lars.py line 85: `grad = grad.add(p, alpha=weight_decay)`, coupled decay
folded into the gradient before the norms are taken. -/
def LARS.wdGrad {m n : ℕ} (weight_decay : ℝ) (p g : Fin m → Fin n → ℝ) :
    Fin m → Fin n → ℝ :=
  fun i j => g i j + p i j * weight_decay

/-- lars.py lines 86-94: the trust ratio
`q = where(param_norm > 0, where(update_norm > 0,
trust_coefficient * param_norm / update_norm, 1), 1)`. -/
noncomputable def LARS.trustQ {m n : ℕ} (trust_coefficient weight_decay : ℝ)
    (p g : Fin m → Fin n → ℝ) : ℝ :=
  let param_norm : ℝ := frobNorm p
  let update_norm : ℝ := frobNorm (LARS.wdGrad weight_decay p g)
  if 0 < param_norm then
    if 0 < update_norm then trust_coefficient * param_norm / update_norm else 1
  else 1

/-- lars.py lines 84-104 for one parameter with `p.ndim > 1` (modelled at
rank 2) and a dense gradient: fold weight decay into the gradient, scale it
by the trust ratio, update the momentum buffer
`mu = mu * momentum + grad * q` (the buffer starts at zero when absent,
lines 97-99) and update the parameter `p = p - lr * mu`.  Returns the new
parameter and the new momentum buffer. -/
noncomputable def LARS.stepMat {m n : ℕ}
    (lr weight_decay momentum trust_coefficient : ℝ)
    (p g mu : Fin m → Fin n → ℝ) :
    (Fin m → Fin n → ℝ) × (Fin m → Fin n → ℝ) :=
  let grad1 := LARS.wdGrad weight_decay p g
  let q : ℝ := LARS.trustQ trust_coefficient weight_decay p g
  let grad2 : Fin m → Fin n → ℝ := fun i j => grad1 i j * q
  let mu' : Fin m → Fin n → ℝ := fun i j => mu i j * momentum + grad2 i j
  (fun i j => p i j - lr * mu' i j, mu')

/-! ### Claim C3: the LARS trust ratio -/

/-- C3: for a rank-2 parameter with dense gradient, the trust ratio is
`trust_coefficient * ‖p‖ / ‖g + wd*p‖` when both norms are positive and `1`
when either is zero; an all-zero parameter gives exactly `q = 1`; and in the
spec scenario (`momentum = 0`, `trust_coefficient = 0.001`, parameter norm
10, gradient norm 5, no weight decay) `q = 0.002` and the new parameter is
`p - lr * (0.002 * g)`. -/
theorem C3_lars_trust_ratio {m n : ℕ} (lr weight_decay trust_coefficient : ℝ)
    (p g mu : Fin m → Fin n → ℝ) :
    (0 < frobNorm p → 0 < frobNorm (LARS.wdGrad weight_decay p g) →
      LARS.trustQ trust_coefficient weight_decay p g =
        trust_coefficient * frobNorm p / frobNorm (LARS.wdGrad weight_decay p g)) ∧
    (frobNorm p = 0 ∨ frobNorm (LARS.wdGrad weight_decay p g) = 0 →
      LARS.trustQ trust_coefficient weight_decay p g = 1) ∧
    ((∀ i j, p i j = 0) → LARS.trustQ trust_coefficient weight_decay p g = 1) ∧
    (frobNorm p = 10 → frobNorm g = 5 →
      LARS.trustQ (1 / 1000) 0 p g = 1 / 500 ∧
      (LARS.stepMat lr 0 0 (1 / 1000) p g mu).1 =
        fun i j => p i j - lr * (1 / 500 * g i j)) := by
  have hwd0 : LARS.wdGrad 0 p g = g := by
    funext i j; simp [LARS.wdGrad]
  refine ⟨?_, ?_, ?_, ?_⟩
  · intro h1 h2
    simp only [LARS.trustQ, if_pos h1, if_pos h2]
  · rintro (h | h)
    · simp only [LARS.trustQ, h, lt_irrefl, if_false]
    · simp only [LARS.trustQ, h, lt_irrefl, if_false]
      split <;> rfl
  · intro hz
    have h0 : frobNorm p = 0 := by
      simp only [frobNorm]
      have : ∀ i ∈ univ, ∑ j, (p i j) ^ 2 = 0 := by
        intro i _
        exact Finset.sum_eq_zero fun j _ => by rw [hz i j]; ring
      rw [Finset.sum_congr rfl this]
      simp
    simp only [LARS.trustQ, h0, lt_irrefl, if_false]
  · intro hp hg
    have hq : LARS.trustQ (1 / 1000) 0 p g = 1 / 500 := by
      simp only [LARS.trustQ, hwd0, hp, hg]
      norm_num
    refine ⟨hq, ?_⟩
    funext i j
    simp only [LARS.stepMat, hq, hwd0, LARS.wdGrad]
    ring

/-- Concrete 2x2 parameter with Frobenius norm 10 (all entries 5). -/
noncomputable def larsP : Fin 2 → Fin 2 → ℝ := fun _ _ => 5

/-- Concrete 2x2 gradient with Frobenius norm 5 (all entries 5/2). -/
noncomputable def larsG : Fin 2 → Fin 2 → ℝ := fun _ _ => 5 / 2

theorem larsP_norm : frobNorm larsP = 10 := by
  have h : (∑ i : Fin 2, ∑ j : Fin 2, (larsP i j) ^ 2) = 100 := by
    norm_num [larsP, Fin.sum_univ_two]
  rw [frobNorm, h, show (100 : ℝ) = 10 ^ 2 by norm_num,
    Real.sqrt_sq (by norm_num : (0 : ℝ) ≤ 10)]

theorem larsG_norm : frobNorm larsG = 5 := by
  have h : (∑ i : Fin 2, ∑ j : Fin 2, (larsG i j) ^ 2) = 25 := by
    norm_num [larsG, Fin.sum_univ_two]
  rw [frobNorm, h, show (25 : ℝ) = 5 ^ 2 by norm_num,
    Real.sqrt_sq (by norm_num : (0 : ℝ) ≤ 5)]

/-- C3 witness: the all-5 parameter has norm 10, the all-5/2 gradient has
norm 5, and the scenario conclusion holds there. -/
theorem C3_lars_trust_ratio_witness :
    frobNorm larsP = 10 ∧ frobNorm larsG = 5 ∧
    (LARS.trustQ (1 / 1000) 0 larsP larsG = 1 / 500 ∧
     (LARS.stepMat 1 0 0 (1 / 1000) larsP larsG (fun _ _ => 0)).1 =
       fun i j => larsP i j - 1 * (1 / 500 * larsG i j)) :=
  ⟨larsP_norm, larsG_norm,
   (C3_lars_trust_ratio 1 0 (1 / 1000) larsP larsG (fun _ _ => 0)).2.2.2
     larsP_norm larsG_norm⟩

/-! ## Nero (pytorch_optimizer/nero.py) -/

/-- `neuron_norm` (nero.py lines 8-15) on a rank-2 tensor: the 2-norm of
each leading-axis slice (neuron). -/
noncomputable def neuron_norm {m n : ℕ} (x : Fin m → Fin n → ℝ) : Fin m → ℝ :=
  fun i => Real.sqrt (∑ j, (x i j) ^ 2)

/-- `neuron_mean` (nero.py lines 18-25) on a rank-2 tensor: the mean of each
leading-axis slice (only defined for rank > 1 in the source). -/
noncomputable def neuron_mean {m n : ℕ} (x : Fin m → Fin n → ℝ) : Fin m → ℝ :=
  fun i => (∑ j, x i j) / n

/-- Float division followed by the NaN replacement
`grad_normed[torch.isnan(grad_normed)] = 0.0` (nero.py lines 113-114).
With finite operands the quotient is NaN exactly for 0/0, which this
function sends to 0; a nonzero numerator over a zero denominator gives a
float infinity, which the source does *not* replace (no claim exercises
that case). -/
noncomputable def nanToZeroDiv (a b : ℝ) : ℝ := if b = 0 ∧ a = 0 then 0 else a / b

/-- The Nero constraint projection (nero.py lines 118-120, likewise 67-69
and 98-100): subtract the per-neuron mean in place, then divide in place by
the per-neuron norm of the *recentered* tensor. -/
noncomputable def neroProject {m n : ℕ} (p : Fin m → Fin n → ℝ) : Fin m → Fin n → ℝ :=
  let p1 : Fin m → Fin n → ℝ := fun i j => p i j - neuron_mean p i
  fun i j => p1 i j / neuron_norm p1 i

/-- Nero per-parameter state (nero.py lines 102-106): step counter,
per-neuron second-moment buffer, and the scalar `scale`. -/
structure NeroState (m : ℕ) where
  step : ℕ
  exp_avg_sq : Fin m → ℝ
  scale : ℝ

/-- Nero state initialization on first step or reset (nero.py lines 63-78
and 97-106) for a rank-2 parameter: project if constraints are on, zero the
second-moment buffer, set `scale` to the mean per-neuron norm with the 0.01
floor when it is exactly zero.  Returns the (possibly projected) parameter
and the fresh state. -/
noncomputable def Nero.initState {m n : ℕ} (constraints : Bool)
    (p : Fin m → Fin n → ℝ) : (Fin m → Fin n → ℝ) × NeroState m :=
  let p' := if constraints then neroProject p else p
  let scale0 : ℝ := (∑ i, neuron_norm p' i) / m
  (p', { step := 0, exp_avg_sq := fun _ => 0,
         scale := if scale0 = 0 then 0.01 else scale0 })

/-- nero.py line 111: `exp_avg_sq = beta * exp_avg_sq +
(1 - beta) * neuron_norm(grad) ** 2`. -/
noncomputable def Nero.exp_avg_sq_next {m n : ℕ} (beta : ℝ) (v : Fin m → ℝ)
    (g : Fin m → Fin n → ℝ) : Fin m → ℝ :=
  fun i => beta * v i + (1 - beta) * (neuron_norm g i) ^ 2

/-- nero.py lines 113-114: the gradient normalized by the bias-corrected
root of the updated second moment, with NaN entries replaced by zero. -/
noncomputable def Nero.grad_normed {m n : ℕ} (beta : ℝ) (stepNext : ℕ)
    (vNext : Fin m → ℝ) (g : Fin m → Fin n → ℝ) : Fin m → Fin n → ℝ :=
  fun i j => nanToZeroDiv (g i j) (Real.sqrt (vNext i / (1 - beta ^ stepNext)))

/-- nero.py line 116: the parameter after subtracting
`lr * scale * grad_normed`, before the optional constraint projection. -/
noncomputable def Nero.preStep {m n : ℕ} (lr beta : ℝ)
    (p g : Fin m → Fin n → ℝ) (st : NeroState m) : Fin m → Fin n → ℝ :=
  fun i j => p i j - lr * st.scale *
    Nero.grad_normed beta (st.step + 1) (Nero.exp_avg_sq_next beta st.exp_avg_sq g) g i j

/-- One Nero step on an already-initialized rank-2 parameter (nero.py lines
108-120): increment the step counter, decay the per-neuron second moment,
normalize the gradient with the NaN guard, subtract
`lr * scale * grad_normed`, and if constraints are on re-apply the
projection (rank 2 > 1).  Returns the new parameter and state; `scale` is
unchanged by a step. -/
noncomputable def Nero.stepMat {m n : ℕ} (lr beta : ℝ) (constraints : Bool)
    (p g : Fin m → Fin n → ℝ) (st : NeroState m) :
    (Fin m → Fin n → ℝ) × NeroState m :=
  let p1 := Nero.preStep lr beta p g st
  (if constraints then neroProject p1 else p1,
   { step := st.step + 1,
     exp_avg_sq := Nero.exp_avg_sq_next beta st.exp_avg_sq g,
     scale := st.scale })

/-! ### Claim C6: the zero-gradient-history NaN guard -/

/-- C6: if a neuron's second-moment buffer is zero (as it is whenever the
neuron's gradient norm was zero at every previous step) and its gradient is
zero again this step, then after the next Nero step the neuron's
`exp_avg_sq` entry is still zero, every entry of the normalized gradient on
that neuron is zero (the 0/0 NaN is replaced by zero, not propagated), and
the gradient term leaves the neuron's parameters unchanged: the
pre-projection parameter equals the old parameter on that neuron.  The step
is a total function — no error is raised. -/
theorem C6_nero_zero_history {m n : ℕ} (lr beta : ℝ) (constraints : Bool)
    (p g : Fin m → Fin n → ℝ) (st : NeroState m) (i : Fin m)
    (hv : st.exp_avg_sq i = 0) (hg : ∀ j, g i j = 0) :
    (Nero.stepMat lr beta constraints p g st).2.exp_avg_sq i = 0 ∧
    (∀ j, Nero.grad_normed beta (st.step + 1)
        (Nero.exp_avg_sq_next beta st.exp_avg_sq g) g i j = 0) ∧
    (∀ j, Nero.preStep lr beta p g st i j = p i j) := by
  have hnorm : neuron_norm g i = 0 := by
    simp [neuron_norm, hg]
  have hv' : Nero.exp_avg_sq_next beta st.exp_avg_sq g i = 0 := by
    simp [Nero.exp_avg_sq_next, hv, hnorm]
  have hgn : ∀ j, Nero.grad_normed beta (st.step + 1)
      (Nero.exp_avg_sq_next beta st.exp_avg_sq g) g i j = 0 := by
    intro j
    simp [Nero.grad_normed, hv', hg j, nanToZeroDiv]
  refine ⟨by simpa [Nero.stepMat] using hv', hgn, fun j => ?_⟩
  simp [Nero.preStep, hgn j]

/-- Concrete inputs for the Nero witnesses: a fresh 1-neuron state with
scale 1 and a zero buffer. -/
noncomputable def neroSt1 : NeroState 1 := ⟨0, fun _ => 0, 1⟩

noncomputable def neroP0 : Fin 1 → Fin 1 → ℝ := fun _ _ => 3

noncomputable def neroG0 : Fin 1 → Fin 1 → ℝ := fun _ _ => 0

/-- C6 witness: one Nero step on a 1x1 parameter with zero buffer and zero
gradient keeps the buffer at zero, normalizes the gradient to zero and
leaves the parameter unchanged. -/
theorem C6_nero_zero_history_witness :
    (neroSt1.exp_avg_sq 0 = 0 ∧ (∀ j, neroG0 0 j = 0)) ∧
    ((Nero.stepMat 1 (1 / 2) false neroP0 neroG0 neroSt1).2.exp_avg_sq 0 = 0 ∧
     (∀ j, Nero.grad_normed (1 / 2) (neroSt1.step + 1)
         (Nero.exp_avg_sq_next (1 / 2) neroSt1.exp_avg_sq neroG0) neroG0 0 j = 0) ∧
     (∀ j, Nero.preStep 1 (1 / 2) neroP0 neroG0 neroSt1 0 j = neroP0 0 j)) :=
  ⟨⟨rfl, fun _ => rfl⟩,
   C6_nero_zero_history 1 (1 / 2) false neroP0 neroG0 neroSt1 0 rfl (fun _ => rfl)⟩

/-! ### Claim C7: the constraint projection invariant -/

/-- After the Nero projection, any neuron whose recentered slice has
nonzero norm ends with mean 0 and norm 1. -/
theorem neroProject_mean_norm {m n : ℕ} (q : Fin m → Fin n → ℝ) (i : Fin m)
    (hn : neuron_norm (fun i' j => q i' j - neuron_mean q i') i ≠ 0) :
    neuron_mean (neroProject q) i = 0 ∧ neuron_norm (neroProject q) i = 1 := by
  set q1 : Fin m → Fin n → ℝ := fun i' j => q i' j - neuron_mean q i' with hq1
  have hnn : n ≠ 0 := by
    rintro rfl
    apply hn
    simp [neuron_norm]
  have hnR : (n : ℝ) ≠ 0 := Nat.cast_ne_zero.mpr hnn
  have hS : (0 : ℝ) ≤ ∑ j, (q1 i j) ^ 2 := Finset.sum_nonneg fun j _ => sq_nonneg _
  have hcpos : 0 < neuron_norm q1 i :=
    lt_of_le_of_ne (Real.sqrt_nonneg _) (Ne.symm hn)
  have hc2 : (neuron_norm q1 i) ^ 2 = ∑ j, (q1 i j) ^ 2 := Real.sq_sqrt hS
  have hsum : ∑ j, q1 i j = 0 := by
    simp only [hq1, neuron_mean, Finset.sum_sub_distrib, Finset.sum_const,
      Finset.card_univ, Fintype.card_fin, nsmul_eq_mul]
    field_simp
  have hproj : ∀ j, neroProject q i j = q1 i j / neuron_norm q1 i := fun j => rfl
  constructor
  · simp only [neuron_mean]
    rw [Finset.sum_congr rfl (fun j _ => hproj j), ← Finset.sum_div, hsum]
    simp
  · simp only [neuron_norm]
    have hone : ∑ j, (q1 i j / neuron_norm q1 i) ^ 2 = 1 := by
      rw [Finset.sum_congr rfl (fun j _ => div_pow _ _ 2), ← Finset.sum_div, ← hc2]
      field_simp
    rw [Finset.sum_congr rfl (fun j _ => by rw [hproj j]), hone, Real.sqrt_one]

/-- C7: after a Nero step with constraints enabled on a rank-2 parameter
whose recentered pre-projection slices all have nonzero norm, every neuron
(leading-axis slice) of the updated parameter has mean 0 and norm 1 —
exactly, in the real-arithmetic model (floating tolerance is vacuous
here). -/
theorem C7_nero_constraints_manifold {m n : ℕ} (lr beta : ℝ)
    (p g : Fin m → Fin n → ℝ) (st : NeroState m)
    (hn : ∀ i, neuron_norm (fun i' j => Nero.preStep lr beta p g st i' j -
        neuron_mean (Nero.preStep lr beta p g st) i') i ≠ 0) :
    ∀ i, neuron_mean ((Nero.stepMat lr beta true p g st).1) i = 0 ∧
         neuron_norm ((Nero.stepMat lr beta true p g st).1) i = 1 := by
  intro i
  have h := neroProject_mean_norm (Nero.preStep lr beta p g st) i (hn i)
  simpa [Nero.stepMat] using h

/-- Shared helper: a Nero step with an all-zero gradient and an all-zero
second-moment buffer does not move the pre-projection parameter. -/
theorem nero_preStep_zero_grad {m n : ℕ} (lr beta : ℝ)
    (p : Fin m → Fin n → ℝ) (st : NeroState m)
    (hv : ∀ i, st.exp_avg_sq i = 0) :
    Nero.preStep lr beta p (fun _ _ => 0) st = p := by
  funext i j
  simp [Nero.preStep, Nero.grad_normed, Nero.exp_avg_sq_next, nanToZeroDiv,
    neuron_norm, hv]

noncomputable def neroP7 : Fin 1 → Fin 2 → ℝ := fun _ => ![3, 1]

noncomputable def neroG7 : Fin 1 → Fin 2 → ℝ := fun _ _ => 0

/-- The recentered slice of `neroP7` is `(1, -1)`, of norm `sqrt 2 ≠ 0`. -/
theorem neroP7_recentered_norm (i : Fin 1) :
    neuron_norm (fun i' j => neroP7 i' j - neuron_mean neroP7 i') i ≠ 0 := by
  have h2 : ∑ j, ((neroP7 i j - neuron_mean neroP7 i)) ^ 2 = 2 := by
    norm_num [neroP7, neuron_mean, Fin.sum_univ_two]
  have hval : neuron_norm (fun i' j => neroP7 i' j - neuron_mean neroP7 i') i
      = Real.sqrt 2 := by
    simp only [neuron_norm]
    rw [h2]
  rw [hval]
  exact (Real.sqrt_pos.mpr (by norm_num)).ne'

/-- C7 witness: one constrained Nero step on the 1x2 parameter `(3, 1)`
with zero gradient; the recentered slice has nonzero norm, and the updated
neuron has mean 0 and norm 1. -/
theorem C7_nero_constraints_manifold_witness :
    (∀ i, neuron_norm (fun i' j => Nero.preStep 1 (1 / 2) neroP7 neroG7 neroSt1 i' j -
        neuron_mean (Nero.preStep 1 (1 / 2) neroP7 neroG7 neroSt1) i') i ≠ 0) ∧
    (∀ i, neuron_mean ((Nero.stepMat 1 (1 / 2) true neroP7 neroG7 neroSt1).1) i = 0 ∧
          neuron_norm ((Nero.stepMat 1 (1 / 2) true neroP7 neroG7 neroSt1).1) i = 1) := by
  have hps : Nero.preStep 1 (1 / 2) neroP7 neroG7 neroSt1 = neroP7 :=
    nero_preStep_zero_grad 1 (1 / 2) neroP7 neroSt1 (fun _ => rfl)
  have hn : ∀ i, neuron_norm (fun i' j => Nero.preStep 1 (1 / 2) neroP7 neroG7 neroSt1 i' j -
      neuron_mean (Nero.preStep 1 (1 / 2) neroP7 neroG7 neroSt1) i') i ≠ 0 := by
    intro i
    simp only [hps]
    exact neroP7_recentered_norm i
  exact ⟨hn, C7_nero_constraints_manifold 1 (1 / 2) neroP7 neroG7 neroSt1 hn⟩

/-! ## Reset operations (claim C8) -/

/-- `Nero.reset` (nero.py lines 63-78) for one rank-2 parameter: identical
body to the lazy first-step initialization — project when constraints are
on, set `step` to 0, zero the second-moment buffer, recompute `scale` from
the (possibly projected) parameter with the 0.01 floor.  The group
configuration is only read, never written. -/
noncomputable def Nero.reset {m n : ℕ} (constraints : Bool)
    (p : Fin m → Fin n → ℝ) : (Fin m → Fin n → ℝ) × NeroState m :=
  let p' := if constraints then neroProject p else p
  let scale0 : ℝ := (∑ i, neuron_norm p' i) / m
  (p', { step := 0, exp_avg_sq := fun _ => 0,
         scale := if scale0 = 0 then 0.01 else scale0 })

/-- An AdaFactor parameter group: the hyperparameter configuration together
with the mutable per-group step counter, which is absent before the first
step (adafactor.py lines 151-154). -/
structure AFGroup where
  cfg : AFConfig
  step : Option ℕ

/-- The zero AdaFactor state installed by both the lazy initialization
(adafactor.py lines 184-198) and `reset` (lines 94-107) for a factored
rank-2 parameter.  `exp_avg_sq_hat` is zeroed only under `ams_bound` in the
source; the model keeps the field unconditionally and zeroes it. -/
noncomputable def AdaFactor.zeroStateF (m n : ℕ) : AFStateF m n :=
  { exp_avg := fun _ _ => 0, exp_avg_sq_row := fun _ => 0,
    exp_avg_sq_col := fun _ => 0, exp_avg_sq_hat := fun _ _ => 0, RMS := 0 }

/-- `AdaFactor.reset` (adafactor.py lines 82-107) on a group with one
factored rank-2 parameter whose gradient is present: set the group step
counter to 0 and install the zero state.  The parameter itself and the
configuration fields are untouched. -/
noncomputable def AdaFactor.resetF (g : AFGroup) (m n : ℕ) :
    AFGroup × AFStateF m n :=
  ({ g with step := some 0 }, AdaFactor.zeroStateF m n)

/-- C8: a `reset` call — whatever the prior state, so in particular after
any number of steps and also when called repeatedly — returns a state with
step counter 0 and zero buffers.  For Nero, `reset` coincides with the
first-step lazy initialization (`scale` is recomputed from the current
parameter exactly as on a fresh start); for AdaFactor, the group's step
counter becomes 0 and every configuration field is unchanged, and resetting
twice gives the same group and state as resetting once. -/
theorem C8_reset_reinitializes {m n : ℕ} (constraints : Bool)
    (p : Fin m → Fin n → ℝ) (g : AFGroup) :
    ((Nero.reset constraints p).2.step = 0 ∧
     (Nero.reset constraints p).2.exp_avg_sq = (fun _ => 0) ∧
     Nero.reset constraints p = Nero.initState constraints p) ∧
    ((AdaFactor.resetF g m n).2.exp_avg = (fun _ _ => 0) ∧
     (AdaFactor.resetF g m n).2.exp_avg_sq_row = (fun _ => 0) ∧
     (AdaFactor.resetF g m n).2.exp_avg_sq_col = (fun _ => 0) ∧
     (AdaFactor.resetF g m n).2.exp_avg_sq_hat = (fun _ _ => 0) ∧
     (AdaFactor.resetF g m n).2.RMS = 0 ∧
     (AdaFactor.resetF g m n).1.step = some 0 ∧
     (AdaFactor.resetF g m n).1.cfg = g.cfg ∧
     AdaFactor.resetF ((AdaFactor.resetF g m n).1) m n = AdaFactor.resetF g m n) :=
  ⟨⟨rfl, rfl, rfl⟩, ⟨rfl, rfl, rfl, rfl, rfl, rfl, rfl, rfl⟩⟩

/-! ## Sequential iteration over a group's parameters (claims C9, C10)

Each optimizer's `step` walks the parameters of a group in order, mutating
them in place; a sparse gradient raises in the middle of the walk, leaving
the parameters already processed mutated and the rest untouched.  An entry
bundles one rank-2 parameter with its (possibly absent) gradient, the
`is_sparse` flag of that gradient, and its lazily created optimizer
state. -/

structure LarsEntry (m n : ℕ) where
  p : Fin m → Fin n → ℝ
  grad : Option (Fin m → Fin n → ℝ)
  sparse : Bool
  mu : Option (Fin m → Fin n → ℝ)

/-- The LARS update of one rank-2 entry with a dense gradient
(lars.py lines 84-104); the momentum buffer starts at zero when absent
(lines 97-99). -/
noncomputable def LARS.stepEntry {m n : ℕ} (lr weight_decay momentum trust_coefficient : ℝ)
    (e : LarsEntry m n) : LarsEntry m n :=
  match e.grad with
  | none => e
  | some g =>
    let mu0 := e.mu.getD (fun _ _ => 0)
    let r := LARS.stepMat lr weight_decay momentum trust_coefficient e.p g mu0
    { e with p := r.1, mu := some r.2 }

/-- `LARS.step` over the parameters of a group (lars.py lines 75-104):
parameters without a gradient are skipped (line 77), a sparse gradient
raises `RuntimeError` at once (lines 81-82) leaving the entries from that
point on untouched, and otherwise the entry is updated and the walk
continues. -/
noncomputable def LARS.stepList {m n : ℕ}
    (lr weight_decay momentum trust_coefficient : ℝ) :
    List (LarsEntry m n) → List (LarsEntry m n) × Option String
  | [] => ([], none)
  | e :: rest =>
    match e.grad with
    | none =>
      let r := LARS.stepList lr weight_decay momentum trust_coefficient rest
      (e :: r.1, r.2)
    | some _ =>
      if e.sparse then (e :: rest, some "LARS does not support sparse gradients")
      else
        let e' := LARS.stepEntry lr weight_decay momentum trust_coefficient e
        let r := LARS.stepList lr weight_decay momentum trust_coefficient rest
        (e' :: r.1, r.2)

structure NeroEntry (m n : ℕ) where
  p : Fin m → Fin n → ℝ
  grad : Option (Fin m → Fin n → ℝ)
  sparse : Bool
  st : Option (NeroState m)

/-- The Nero update of one rank-2 entry with a dense gradient (nero.py
lines 96-120), with lazy state initialization (lines 97-106) when the
state is absent. -/
noncomputable def Nero.stepEntry {m n : ℕ} (lr beta : ℝ) (constraints : Bool)
    (e : NeroEntry m n) : NeroEntry m n :=
  match e.grad with
  | none => e
  | some g =>
    let init := match e.st with
      | none => Nero.initState constraints e.p
      | some s => (e.p, s)
    let r := Nero.stepMat lr beta constraints init.1 g init.2
    { e with p := r.1, st := some r.2 }

/-- `Nero.step` over the parameters of a group (nero.py lines 87-120):
skip absent gradients (line 89), raise `RuntimeError` on a sparse gradient
(lines 93-94), otherwise update and continue. -/
noncomputable def Nero.stepList {m n : ℕ} (lr beta : ℝ) (constraints : Bool) :
    List (NeroEntry m n) → List (NeroEntry m n) × Option String
  | [] => ([], none)
  | e :: rest =>
    match e.grad with
    | none =>
      let r := Nero.stepList lr beta constraints rest
      (e :: r.1, r.2)
    | some _ =>
      if e.sparse then (e :: rest, some "Nero does not support sparse gradients")
      else
        let e' := Nero.stepEntry lr beta constraints e
        let r := Nero.stepList lr beta constraints rest
        (e' :: r.1, r.2)

structure AFEntry (m n : ℕ) where
  p : Fin m → Fin n → ℝ
  grad : Option (Fin m → Fin n → ℝ)
  sparse : Bool
  st : Option (AFStateF m n)

/-- The AdaFactor update of one factored rank-2 entry with a dense gradient
(adafactor.py lines 168-249), with lazy zero-state initialization (lines
184-198) when the state is absent; `t` is the group step counter already
incremented for this step. -/
noncomputable def AdaFactor.stepEntry {m n : ℕ} (cfg : AFConfig) (t : ℕ)
    (e : AFEntry m n) : AFEntry m n :=
  match e.grad with
  | none => e
  | some g =>
    let st0 := e.st.getD (AdaFactor.zeroStateF m n)
    let r := AdaFactor.stepFactored cfg t e.p g st0
    { e with p := r.1, st := some r.2 }

/-- `AdaFactor.step` over the parameters of a group (adafactor.py lines
160-249): skip absent gradients (lines 161-162), raise
`NoSparseGradientError` on a sparse gradient (lines 165-166), otherwise
update and continue. -/
noncomputable def AdaFactor.stepList {m n : ℕ} (cfg : AFConfig) (t : ℕ) :
    List (AFEntry m n) → List (AFEntry m n) × Option String
  | [] => ([], none)
  | e :: rest =>
    match e.grad with
    | none =>
      let r := AdaFactor.stepList cfg t rest
      (e :: r.1, r.2)
    | some _ =>
      if e.sparse then (e :: rest, some "NoSparseGradientError")
      else
        let e' := AdaFactor.stepEntry cfg t e
        let r := AdaFactor.stepList cfg t rest
        (e' :: r.1, r.2)

/-- `AdaFactor.reset` over the parameters of a group (adafactor.py lines
84-107): line 91 reads `grad.shape` with no absent-gradient guard, so a
parameter whose gradient is `None` raises an `AttributeError` on the spot,
leaving the remaining parameters' states untouched; otherwise the zero
state is installed and the walk continues. -/
noncomputable def AdaFactor.resetList {m n : ℕ} :
    List (AFEntry m n) → List (AFEntry m n) × Option String
  | [] => ([], none)
  | e :: rest =>
    match e.grad with
    | none => (e :: rest, some "AttributeError: NoneType object has no attribute shape")
    | some _ =>
      let e' := { e with st := some (AdaFactor.zeroStateF m n) }
      let r := AdaFactor.resetList rest
      (e' :: r.1, r.2)

/-- Shared helper: LARS stops with the sparse-gradient error at the first
sparse entry and keeps the earlier (dense or gradient-less) entries
updated. -/
theorem lars_stepList_sparse_stop {m n : ℕ} (lr wd mom tc : ℝ)
    (pre : List (LarsEntry m n)) (e : LarsEntry m n) (post : List (LarsEntry m n))
    (hpre : ∀ x ∈ pre, x.grad.isSome = true → x.sparse = false)
    (hg : e.grad.isSome = true) (hs : e.sparse = true) :
    LARS.stepList lr wd mom tc (pre ++ e :: post) =
      (pre.map (LARS.stepEntry lr wd mom tc) ++ e :: post,
       some "LARS does not support sparse gradients") := by
  induction pre with
  | nil =>
    obtain ⟨g, hgg⟩ := Option.isSome_iff_exists.mp hg
    simp only [List.nil_append, List.map_nil, LARS.stepList, hgg, hs, if_true]
  | cons x pre ih =>
    have hx := hpre x (List.mem_cons_self _ _)
    have hpre' : ∀ y ∈ pre, y.grad.isSome = true → y.sparse = false :=
      fun y hy => hpre y (List.mem_cons_of_mem _ hy)
    cases hxg : x.grad with
    | none =>
      have hse : LARS.stepEntry lr wd mom tc x = x := by
        simp only [LARS.stepEntry, hxg]
      simp only [List.cons_append, List.map_cons, LARS.stepList, hxg,
        List.append_eq, ih hpre', hse]
    | some g =>
      have hxs : x.sparse = false := hx (by rw [hxg]; rfl)
      simp only [List.cons_append, List.map_cons, LARS.stepList, hxg, hxs,
        List.append_eq, Bool.false_eq_true, if_false, ih hpre']

/-- Shared helper: Nero stops with the sparse-gradient error at the first
sparse entry and keeps the earlier entries updated. -/
theorem nero_stepList_sparse_stop {m n : ℕ} (lr beta : ℝ) (constraints : Bool)
    (pre : List (NeroEntry m n)) (e : NeroEntry m n) (post : List (NeroEntry m n))
    (hpre : ∀ x ∈ pre, x.grad.isSome = true → x.sparse = false)
    (hg : e.grad.isSome = true) (hs : e.sparse = true) :
    Nero.stepList lr beta constraints (pre ++ e :: post) =
      (pre.map (Nero.stepEntry lr beta constraints) ++ e :: post,
       some "Nero does not support sparse gradients") := by
  induction pre with
  | nil =>
    obtain ⟨g, hgg⟩ := Option.isSome_iff_exists.mp hg
    simp only [List.nil_append, List.map_nil, Nero.stepList, hgg, hs, if_true]
  | cons x pre ih =>
    have hx := hpre x (List.mem_cons_self _ _)
    have hpre' : ∀ y ∈ pre, y.grad.isSome = true → y.sparse = false :=
      fun y hy => hpre y (List.mem_cons_of_mem _ hy)
    cases hxg : x.grad with
    | none =>
      have hse : Nero.stepEntry lr beta constraints x = x := by
        simp only [Nero.stepEntry, hxg]
      simp only [List.cons_append, List.map_cons, Nero.stepList, hxg,
        List.append_eq, ih hpre', hse]
    | some g =>
      have hxs : x.sparse = false := hx (by rw [hxg]; rfl)
      simp only [List.cons_append, List.map_cons, Nero.stepList, hxg, hxs,
        List.append_eq, Bool.false_eq_true, if_false, ih hpre']

/-- Shared helper: AdaFactor stops with `NoSparseGradientError` at the
first sparse entry and keeps the earlier entries updated. -/
theorem adafactor_stepList_sparse_stop {m n : ℕ} (cfg : AFConfig) (t : ℕ)
    (pre : List (AFEntry m n)) (e : AFEntry m n) (post : List (AFEntry m n))
    (hpre : ∀ x ∈ pre, x.grad.isSome = true → x.sparse = false)
    (hg : e.grad.isSome = true) (hs : e.sparse = true) :
    AdaFactor.stepList cfg t (pre ++ e :: post) =
      (pre.map (AdaFactor.stepEntry cfg t) ++ e :: post,
       some "NoSparseGradientError") := by
  induction pre with
  | nil =>
    obtain ⟨g, hgg⟩ := Option.isSome_iff_exists.mp hg
    simp only [List.nil_append, List.map_nil, AdaFactor.stepList, hgg, hs, if_true]
  | cons x pre ih =>
    have hx := hpre x (List.mem_cons_self _ _)
    have hpre' : ∀ y ∈ pre, y.grad.isSome = true → y.sparse = false :=
      fun y hy => hpre y (List.mem_cons_of_mem _ hy)
    cases hxg : x.grad with
    | none =>
      have hse : AdaFactor.stepEntry cfg t x = x := by
        simp only [AdaFactor.stepEntry, hxg]
      simp only [List.cons_append, List.map_cons, AdaFactor.stepList, hxg,
        List.append_eq, ih hpre', hse]
    | some g =>
      have hxs : x.sparse = false := hx (by rw [hxg]; rfl)
      simp only [List.cons_append, List.map_cons, AdaFactor.stepList, hxg, hxs,
        List.append_eq, Bool.false_eq_true, if_false, ih hpre']

/-! ### Claim C9: sparse gradients abort the step, earlier updates stand -/

/-- C9: for LARS, Nero and AdaFactor, if the walk over a group's parameters
meets a sparse gradient (after a prefix whose gradients are all dense or
absent), the step stops at once with that optimizer's explicit error, the
prefix remains exactly elementwise-updated (mutations are not rolled back),
and the sparse entry and everything after it are untouched. -/
theorem C9_sparse_gradient_stops_step {m n : ℕ} (lr wd mom tc beta : ℝ)
    (constraints : Bool) (cfg : AFConfig) (t : ℕ) :
    (∀ (pre : List (LarsEntry m n)) (e : LarsEntry m n) post,
      (∀ x ∈ pre, x.grad.isSome = true → x.sparse = false) →
      e.grad.isSome = true → e.sparse = true →
      LARS.stepList lr wd mom tc (pre ++ e :: post) =
        (pre.map (LARS.stepEntry lr wd mom tc) ++ e :: post,
         some "LARS does not support sparse gradients")) ∧
    (∀ (pre : List (NeroEntry m n)) (e : NeroEntry m n) post,
      (∀ x ∈ pre, x.grad.isSome = true → x.sparse = false) →
      e.grad.isSome = true → e.sparse = true →
      Nero.stepList lr beta constraints (pre ++ e :: post) =
        (pre.map (Nero.stepEntry lr beta constraints) ++ e :: post,
         some "Nero does not support sparse gradients")) ∧
    (∀ (pre : List (AFEntry m n)) (e : AFEntry m n) post,
      (∀ x ∈ pre, x.grad.isSome = true → x.sparse = false) →
      e.grad.isSome = true → e.sparse = true →
      AdaFactor.stepList cfg t (pre ++ e :: post) =
        (pre.map (AdaFactor.stepEntry cfg t) ++ e :: post,
         some "NoSparseGradientError")) :=
  ⟨fun pre e post h1 h2 h3 => lars_stepList_sparse_stop lr wd mom tc pre e post h1 h2 h3,
   fun pre e post h1 h2 h3 => nero_stepList_sparse_stop lr beta constraints pre e post h1 h2 h3,
   fun pre e post h1 h2 h3 => adafactor_stepList_sparse_stop cfg t pre e post h1 h2 h3⟩

/-- Concrete entries for the C9/C10 witnesses: a dense entry, a sparse
entry, and (for AdaFactor) an entry whose gradient is absent. -/
noncomputable def larsEntryDense : LarsEntry 1 1 :=
  ⟨fun _ _ => 1, some (fun _ _ => 1), false, none⟩

noncomputable def larsEntrySparse : LarsEntry 1 1 :=
  ⟨fun _ _ => 1, some (fun _ _ => 1), true, none⟩

noncomputable def neroEntryDense : NeroEntry 1 1 :=
  ⟨fun _ _ => 1, some (fun _ _ => 1), false, none⟩

noncomputable def neroEntrySparse : NeroEntry 1 1 :=
  ⟨fun _ _ => 1, some (fun _ _ => 1), true, none⟩

noncomputable def afEntryDense : AFEntry 1 1 :=
  ⟨fun _ _ => 1, some (fun _ _ => 1), false, none⟩

noncomputable def afEntrySparse : AFEntry 1 1 :=
  ⟨fun _ _ => 1, some (fun _ _ => 1), true, none⟩

noncomputable def afEntryNoGrad : AFEntry 1 1 :=
  ⟨fun _ _ => 1, none, false, none⟩

/-- The AdaFactor constructor defaults (adafactor.py lines 37-49). -/
noncomputable def afCfgDefault : AFConfig :=
  ⟨1e-3, 9 / 10, -(8 / 10), 0, true, false, 1, false, true, true, false, 1e-30, 1e-3⟩

/-- C9 witness: for each optimizer, a two-entry group whose first entry is
dense and whose second is sparse stops with the optimizer's error, the
first entry updated and the sparse entry untouched. -/
theorem C9_sparse_gradient_stops_step_witness :
    ((∀ x ∈ [larsEntryDense], x.grad.isSome = true → x.sparse = false) ∧
     larsEntrySparse.grad.isSome = true ∧ larsEntrySparse.sparse = true ∧
     LARS.stepList 1 0 0 (1 / 1000) ([larsEntryDense] ++ larsEntrySparse :: []) =
       ([larsEntryDense].map (LARS.stepEntry 1 0 0 (1 / 1000)) ++ larsEntrySparse :: [],
        some "LARS does not support sparse gradients")) ∧
    ((∀ x ∈ [neroEntryDense], x.grad.isSome = true → x.sparse = false) ∧
     neroEntrySparse.grad.isSome = true ∧ neroEntrySparse.sparse = true ∧
     Nero.stepList 1 (1 / 2) true ([neroEntryDense] ++ neroEntrySparse :: []) =
       ([neroEntryDense].map (Nero.stepEntry 1 (1 / 2) true) ++ neroEntrySparse :: [],
        some "Nero does not support sparse gradients")) ∧
    ((∀ x ∈ [afEntryDense], x.grad.isSome = true → x.sparse = false) ∧
     afEntrySparse.grad.isSome = true ∧ afEntrySparse.sparse = true ∧
     AdaFactor.stepList afCfgDefault 1 ([afEntryDense] ++ afEntrySparse :: []) =
       ([afEntryDense].map (AdaFactor.stepEntry afCfgDefault 1) ++ afEntrySparse :: [],
        some "NoSparseGradientError")) := by
  have hl : ∀ x ∈ [larsEntryDense], x.grad.isSome = true → x.sparse = false := by
    intro x hx
    rw [List.mem_singleton] at hx
    subst hx
    intro _
    rfl
  have hn : ∀ x ∈ [neroEntryDense], x.grad.isSome = true → x.sparse = false := by
    intro x hx
    rw [List.mem_singleton] at hx
    subst hx
    intro _
    rfl
  have ha : ∀ x ∈ [afEntryDense], x.grad.isSome = true → x.sparse = false := by
    intro x hx
    rw [List.mem_singleton] at hx
    subst hx
    intro _
    rfl
  exact ⟨⟨hl, rfl, rfl,
      (C9_sparse_gradient_stops_step (m := 1) (n := 1) 1 0 0 (1 / 1000) (1 / 2)
        true afCfgDefault 1).1 [larsEntryDense] larsEntrySparse [] hl rfl rfl⟩,
    ⟨hn, rfl, rfl,
      (C9_sparse_gradient_stops_step (m := 1) (n := 1) 1 0 0 (1 / 1000) (1 / 2)
        true afCfgDefault 1).2.1 [neroEntryDense] neroEntrySparse [] hn rfl rfl⟩,
    ⟨ha, rfl, rfl,
      (C9_sparse_gradient_stops_step (m := 1) (n := 1) 1 0 0 (1 / 1000) (1 / 2)
        true afCfgDefault 1).2.2 [afEntryDense] afEntrySparse [] ha rfl rfl⟩⟩

/-! ### Claim C10: `AdaFactor.reset` has no absent-gradient guard -/

/-- Shared helper: `AdaFactor.reset` raises as soon as it meets a parameter
without a gradient. -/
theorem AdaFactor.resetList_none_grad {m n : ℕ} (entries : List (AFEntry m n))
    (h : ∃ x ∈ entries, x.grad = none) :
    ((AdaFactor.resetList entries).2).isSome = true := by
  induction entries with
  | nil => simp at h
  | cons x rest ih =>
    cases hxg : x.grad with
    | none => simp only [AdaFactor.resetList, hxg, Option.isSome_some]
    | some g =>
      obtain ⟨y, hy, hyg⟩ := h
      rcases List.mem_cons.mp hy with rfl | hy'
      · rw [hxg] at hyg
        cases hyg
      · simp only [AdaFactor.resetList, hxg]
        exact ih ⟨y, hy', hyg⟩

/-- Shared helper: `AdaFactor.step` never raises on a group free of sparse
gradients, absent gradients included — they are skipped. -/
theorem AdaFactor.stepList_no_sparse_ok {m n : ℕ} (cfg : AFConfig) (t : ℕ)
    (entries : List (AFEntry m n)) (h : ∀ x ∈ entries, x.sparse = false) :
    (AdaFactor.stepList cfg t entries).2 = none := by
  induction entries with
  | nil => rfl
  | cons x rest ih =>
    have hx := h x (List.mem_cons_self _ _)
    have h' : ∀ y ∈ rest, y.sparse = false :=
      fun y hy => h y (List.mem_cons_of_mem _ hy)
    cases hxg : x.grad with
    | none =>
      simp only [AdaFactor.stepList, hxg]
      exact ih h'
    | some g =>
      simp only [AdaFactor.stepList, hxg, hx, Bool.false_eq_true, if_false]
      exact ih h'

/-- C10: if some parameter of the group has no gradient, `AdaFactor.reset`
fails with an error (line 91 reads `grad.shape` unguarded), whereas
`AdaFactor.step` on any group without sparse gradients — absent gradients
included — completes without error, silently skipping them. -/
theorem C10_reset_unguarded_none_grad {m n : ℕ} (cfg : AFConfig) (t : ℕ)
    (entries : List (AFEntry m n)) :
    ((∃ x ∈ entries, x.grad = none) →
      ((AdaFactor.resetList entries).2).isSome = true) ∧
    ((∀ x ∈ entries, x.sparse = false) →
      (AdaFactor.stepList cfg t entries).2 = none) :=
  ⟨AdaFactor.resetList_none_grad entries, AdaFactor.stepList_no_sparse_ok cfg t entries⟩

/-- C10 witness: on the one-entry group whose parameter has no gradient,
`reset` errors while `step` succeeds. -/
theorem C10_reset_unguarded_none_grad_witness :
    ((∃ x ∈ [afEntryNoGrad], x.grad = none) ∧
     ((AdaFactor.resetList [afEntryNoGrad]).2).isSome = true) ∧
    ((∀ x ∈ [afEntryNoGrad], x.sparse = false) ∧
     (AdaFactor.stepList afCfgDefault 1 [afEntryNoGrad]).2 = none) := by
  have hex : ∃ x ∈ [afEntryNoGrad], x.grad = none :=
    ⟨afEntryNoGrad, List.mem_singleton_self _, rfl⟩
  have hns : ∀ x ∈ [afEntryNoGrad], x.sparse = false := by
    intro x hx
    rw [List.mem_singleton] at hx
    subst hx
    rfl
  exact ⟨⟨hex, (C10_reset_unguarded_none_grad afCfgDefault 1 [afEntryNoGrad]).1 hex⟩,
    ⟨hns, (C10_reset_unguarded_none_grad afCfgDefault 1 [afEntryNoGrad]).2 hns⟩⟩
